import Mathlib

/-!
Verification of the norge-data query layer.

The module loads two static tables (counties `fylker`, municipalities
`kommuner`) and exposes pure lookup/filter functions over them.  We embed
those functions shallowly: JavaScript strings become `List Char`, JavaScript
numbers (which callers may pass as `Infinity` bounds) become an extended
rational type `JSNum`, the module-level tables become explicit list
parameters, and the `undefined` not-found sentinel becomes `Option.none`.
-/

namespace NorgeData

open List

/-- JavaScript strings are modelled as lists of characters. -/
abbrev Str := List Char

/-- A county record (`Fylke`), as in the module's typedef. -/
structure Fylke where
  f_id : Str
  f_name : Str
  f_url : Str
deriving DecidableEq

/-- A municipality record (`Kommune`), as in the module's typedef. -/
structure Kommune where
  k_id : Str
  k_name : Str
  k_name_no : Str
  k_adm_center : Str
  k_population : ℚ
  k_area : ℚ
  k_language : Str
  k_url : Str
deriving DecidableEq

/-- A JavaScript number usable as a range bound: a finite rational or one of
the two infinities.  (`NaN` is not modelled; the data fields themselves are
finite.) -/
inductive JSNum where
  | fin (q : ℚ)
  | posInf
  | negInf
deriving DecidableEq

/-- The `<=` order on modelled JavaScript numbers, as a proposition. -/
def JSNum.le (a b : JSNum) : Prop :=
  match a, b with
  | .negInf, _ => True
  | .fin _, .posInf => True
  | .posInf, .posInf => True
  | .fin p, .fin q => p ≤ q
  | .posInf, .fin _ => False
  | .posInf, .negInf => False
  | .fin _, .negInf => False

instance (a b : JSNum) : Decidable (JSNum.le a b) := by
  unfold JSNum.le
  cases a <;> cases b <;> infer_instance

/-- The boolean comparison the embedded code uses for `>=` / `<=`. -/
def JSNum.leB (a b : JSNum) : Bool := decide (JSNum.le a b)

/-- `String.prototype.toLowerCase`, character by character. -/
def lowerStr (s : Str) : Str := s.map Char.toLower

/-- `String(x).replace(/^0+/, '')`: drop the leading run of `'0'`s. -/
def strip0 (s : Str) : Str := s.dropWhile (· == '0')

/-- `String.prototype.padStart(4, '0')`. -/
def padStart4 (s : Str) : Str :=
  if 4 ≤ s.length then s else List.replicate (4 - s.length) '0' ++ s

/-- `String.prototype.startsWith`, by recursion on the pattern. -/
def startsWithB : Str → Str → Bool
  | [], _ => true
  | _ :: _, [] => false
  | a :: p, b :: t => a == b && startsWithB p t

/-- `String.prototype.includes`: scan the haystack for a position where the
needle starts. -/
def containsB (n : Str) : Str → Bool
  | [] => n.isEmpty
  | b :: t => startsWithB n (b :: t) || containsB n t

/-- The two-pointer while loop inside `getKommuneByShortId`: advance through
the target, consuming a search character whenever it matches, and succeed
when the whole search string has been consumed. -/
def subseqLoop : Str → Str → Bool
  | [], _ => true
  | _ :: _, [] => false
  | a :: s, b :: t => if a = b then subseqLoop s t else subseqLoop (a :: s) t

/-- `getFylkeById`: first county whose `f_id` equals the input. -/
def getFylkeById (data : List Fylke) (id : Str) : Option Fylke :=
  data.find? (fun fylke => fylke.f_id == id)

/-- `getFylkeByName`: first county whose lower-cased name equals the
lower-cased input. -/
def getFylkeByName (data : List Fylke) (name : Str) : Option Fylke :=
  data.find? (fun fylke => lowerStr fylke.f_name == lowerStr name)

/-- `getKommuneById`: first municipality whose `k_id` equals the input. -/
def getKommuneById (data : List Kommune) (id : Str) : Option Kommune :=
  data.find? (fun kommune => kommune.k_id == id)

/-- `getKommuneByName`: first municipality whose lower-cased primary or
Norwegian name equals the lower-cased input. -/
def getKommuneByName (data : List Kommune) (name : Str) : Option Kommune :=
  data.find? (fun kommune =>
    lowerStr kommune.k_name == lowerStr name ||
    lowerStr kommune.k_name_no == lowerStr name)

/-- `getKommuneByShortId`: normalise the input by stripping leading zeros,
then try (a) exact match after padding to 4 digits, (b) match against each
identifier stripped of its leading zeros, (c) first identifier containing
the normalised input as an in-order subsequence (via the two-pointer loop). -/
def getKommuneByShortId (data : List Kommune) (shortId : Str) : Option Kommune :=
  let searchId := strip0 shortId
  let paddedId := padStart4 searchId
  match data.find? (fun kommune => kommune.k_id == paddedId) with
  | some k => some k
  | none =>
    match data.find? (fun kommune => strip0 kommune.k_id == searchId) with
    | some k => some k
    | none => data.find? (fun kommune => subseqLoop searchId kommune.k_id)

/-- `getKommunerByLanguage`: municipalities whose language form equals the
input case-insensitively. -/
def getKommunerByLanguage (data : List Kommune) (language : Str) : List Kommune :=
  data.filter (fun kommune => lowerStr kommune.k_language == lowerStr language)

/-- `getKommunerInFylke`: municipalities whose identifier starts with the
given county identifier. -/
def getKommunerInFylke (data : List Kommune) (fylkeId : Str) : List Kommune :=
  data.filter (fun kommune => startsWithB fylkeId kommune.k_id)

/-- `getKommunerByPopulation`: municipalities with `min <= population <= max`. -/
def getKommunerByPopulation (data : List Kommune) (min max : JSNum) : List Kommune :=
  data.filter (fun kommune =>
    JSNum.leB min (.fin kommune.k_population) &&
    JSNum.leB (.fin kommune.k_population) max)

/-- `getKommunerByArea`: municipalities with `min <= area <= max`. -/
def getKommunerByArea (data : List Kommune) (min max : JSNum) : List Kommune :=
  data.filter (fun kommune =>
    JSNum.leB min (.fin kommune.k_area) &&
    JSNum.leB (.fin kommune.k_area) max)

/-- `searchKommunerByName`: municipalities whose lower-cased primary or
Norwegian name contains the lower-cased fragment as a substring. -/
def searchKommunerByName (data : List Kommune) (nameFragment : Str) : List Kommune :=
  let searchTerm := lowerStr nameFragment
  data.filter (fun kommune =>
    containsB searchTerm (lowerStr kommune.k_name) ||
    containsB searchTerm (lowerStr kommune.k_name_no))

/-- `searchFylkerByName`: counties whose lower-cased name contains the
lower-cased fragment as a substring. -/
def searchFylkerByName (data : List Fylke) (nameFragment : Str) : List Fylke :=
  let searchTerm := lowerStr nameFragment
  data.filter (fun fylke => containsB searchTerm (lowerStr fylke.f_name))

/-- The three-tier fallback exactly as the spec sentence words it, for
comparison with the code: (a) left-pad the raw input to 4 digits and match
an identifier exactly; (b) strip leading zeros from both the input and each
identifier and match; (c) first identifier containing the raw input's digits
as an in-order subsequence. -/
def claimedShortId (data : List Kommune) (shortId : Str) : Option Kommune :=
  match data.find? (fun kommune => kommune.k_id == padStart4 shortId) with
  | some k => some k
  | none =>
    match data.find? (fun kommune => strip0 kommune.k_id == strip0 shortId) with
    | some k => some k
    | none => data.find? (fun kommune => decide (shortId <+ kommune.k_id))

/-- The amended three-tier description: every tier operates on the input
normalised by stripping leading zeros, and tier (c) is subsequence
containment of the normalised input. -/
def specShortId (data : List Kommune) (shortId : Str) : Option Kommune :=
  match data.find? (fun kommune => kommune.k_id == padStart4 (strip0 shortId)) with
  | some k => some k
  | none =>
    match data.find? (fun kommune => strip0 kommune.k_id == strip0 shortId) with
    | some k => some k
    | none => data.find? (fun kommune => decide (strip0 shortId <+ kommune.k_id))

/-- A sample municipality with identifier `1000`, used as concrete test data. -/
def k1000 : Kommune :=
  ⟨['1', '0', '0', '0'], ['A'], ['A'], ['A'], 10, 5, ['B'], ['u']⟩

/-- A sample municipality with identifier `3101`, a county-31 record whose
identifier contains the digits `3`, `1` in order. -/
def k3101 : Kommune :=
  ⟨['3', '1', '0', '1'], ['M'], ['M'], ['M'], 20, 7, ['B'], ['u']⟩

/-- Oslo: county `03`, municipality identifier `0301`. -/
def oslo0301 : Kommune :=
  ⟨['0', '3', '0', '1'], ['O', 's', 'l', 'o'], ['O', 's', 'l', 'o'],
    ['O', 's', 'l', 'o'], 717710, 454, ['B'], ['u']⟩

/-- A sample county record for Oslo. -/
def osloFylke : Fylke :=
  ⟨['0', '3'], ['O', 's', 'l', 'o'], ['u']⟩

/-! ### Helper lemmas about the embedded string primitives -/

theorem find?_first {α : Type} (p : α → Bool) (l : List α) (a : α)
    (ha : a ∈ l) (hpa : p a = true) (huniq : ∀ x ∈ l, p x = true → x = a) :
    l.find? p = some a := by
  induction l with
  | nil => cases ha
  | cons b t ih =>
    by_cases hb : p b = true
    · rw [List.find?_cons_of_pos _ hb]
      have : b = a := huniq b (List.mem_cons_self b t) hb
      rw [this]
    · rw [List.find?_cons_of_neg _ hb]
      rcases List.mem_cons.mp ha with h | h
      · exact absurd (h ▸ hpa) hb
      · exact ih h (fun x hx => huniq x (List.mem_cons_of_mem _ hx))

theorem find?_split {α : Type} {p : α → Bool} {l : List α} {a : α}
    (h : l.find? p = some a) :
    ∃ l₁ l₂, l = l₁ ++ a :: l₂ ∧ p a = true ∧ ∀ x ∈ l₁, p x = false := by
  induction l with
  | nil => simp [List.find?] at h
  | cons b t ih =>
    by_cases hb : p b = true
    · rw [List.find?_cons_of_pos _ hb] at h
      obtain rfl : b = a := by injection h
      exact ⟨[], t, rfl, hb, by simp⟩
    · rw [List.find?_cons_of_neg _ hb] at h
      obtain ⟨l₁, l₂, heq, hpa, hnone⟩ := ih h
      refine ⟨b :: l₁, l₂, by rw [heq]; rfl, hpa, ?_⟩
      intro x hx
      rcases List.mem_cons.mp hx with h | h
      · subst h; exact Bool.eq_false_iff.mpr hb
      · exact hnone x h

theorem startsWithB_iff (p t : NorgeData.Str) :
    NorgeData.startsWithB p t = true ↔ ∃ r, t = p ++ r := by
  induction p generalizing t with
  | nil => simp [NorgeData.startsWithB]
  | cons a p ih =>
    cases t with
    | nil =>
      constructor
      · intro h; simp [NorgeData.startsWithB] at h
      · rintro ⟨r, hr⟩; simp at hr
    | cons b t =>
      simp only [NorgeData.startsWithB, Bool.and_eq_true, beq_iff_eq, ih]
      constructor
      · rintro ⟨rfl, r, rfl⟩; exact ⟨r, rfl⟩
      · rintro ⟨r, hr⟩
        rw [List.cons_append] at hr
        cases hr
        exact ⟨rfl, r, rfl⟩

theorem containsB_iff (n h : NorgeData.Str) :
    NorgeData.containsB n h = true ↔ ∃ l r, h = l ++ n ++ r := by
  induction h with
  | nil =>
    simp only [NorgeData.containsB, List.isEmpty_iff]
    constructor
    · rintro rfl; exact ⟨[], [], rfl⟩
    · rintro ⟨l, r, hr⟩
      have := congrArg List.length hr
      simp only [List.length_nil, List.length_append] at this
      cases n with
      | nil => rfl
      | cons c m =>
        simp only [List.length_cons] at this
        omega
  | cons b t ih =>
    simp only [NorgeData.containsB, Bool.or_eq_true, startsWithB_iff, ih]
    constructor
    · rintro (⟨r, hr⟩ | ⟨l, r, hr⟩)
      · exact ⟨[], r, by simpa using hr⟩
      · exact ⟨b :: l, r, by simp [hr]⟩
    · rintro ⟨l, r, hr⟩
      cases l with
      | nil => exact Or.inl ⟨r, by simpa using hr⟩
      | cons c l =>
        rw [List.cons_append, List.cons_append] at hr
        cases hr
        exact Or.inr ⟨l, r, rfl⟩

theorem subseqLoop_iff (s t : NorgeData.Str) :
    NorgeData.subseqLoop s t = true ↔ s <+ t := by
  induction t generalizing s with
  | nil =>
    cases s with
    | nil => simp [NorgeData.subseqLoop]
    | cons a s =>
      constructor
      · intro h; simp [NorgeData.subseqLoop] at h
      · intro h; cases h
  | cons b t ih =>
    cases s with
    | nil => simp [NorgeData.subseqLoop]
    | cons a s =>
      rw [show NorgeData.subseqLoop (a :: s) (b :: t) =
            (if a = b then NorgeData.subseqLoop s t
             else NorgeData.subseqLoop (a :: s) t) from rfl]
      by_cases hab : a = b
      · subst hab
        rw [if_pos rfl, ih]
        exact List.cons_sublist_cons.symm
      · rw [if_neg hab, ih]
        constructor
        · exact fun h => h.cons b
        · intro h
          cases h with
          | cons _ h => exact h
          | cons₂ _ h => exact absurd rfl hab

theorem find?_congr {α : Type} {p q : α → Bool} (h : ∀ a, p a = q a) (l : List α) :
    l.find? p = l.find? q := by
  rw [funext h]

theorem strip0_cons_zero (t : NorgeData.Str) : NorgeData.strip0 ('0' :: t) = NorgeData.strip0 t := by
  simp [NorgeData.strip0, List.dropWhile_cons]

theorem strip0_cons_of_ne {c : Char} (t : NorgeData.Str) (hc : c ≠ '0') :
    NorgeData.strip0 (c :: t) = c :: t := by
  simp [NorgeData.strip0, List.dropWhile_cons, hc]

theorem strip0_decomp (s : NorgeData.Str) :
    ∃ k, s = List.replicate k '0' ++ NorgeData.strip0 s := by
  induction s with
  | nil => exact ⟨0, rfl⟩
  | cons c t ih =>
    by_cases hc : c = '0'
    · subst hc
      obtain ⟨k, hk⟩ := ih
      rw [strip0_cons_zero]
      exact ⟨k + 1, by rw [List.replicate_succ, List.cons_append, ← hk]⟩
    · rw [strip0_cons_of_ne t hc]
      exact ⟨0, rfl⟩

theorem strip0_eq_nil_iff (s : NorgeData.Str) :
    NorgeData.strip0 s = [] ↔ ∀ c ∈ s, c = '0' := by
  unfold NorgeData.strip0
  rw [List.dropWhile_eq_nil_iff]
  simp

theorem padStart4_append_zeros (k : ℕ) (r : NorgeData.Str) (h : k + r.length ≤ 4) :
    NorgeData.padStart4 (List.replicate k '0' ++ r) = NorgeData.padStart4 r := by
  unfold NorgeData.padStart4
  have hlen : (List.replicate k '0' ++ r).length = k + r.length := by
    simp [List.length_append, List.length_replicate]
  rw [hlen]
  by_cases h1 : 4 ≤ r.length
  · have hk0 : k = 0 := by omega
    subst hk0
    simp
  · rw [if_neg h1]
    by_cases h2 : 4 ≤ k + r.length
    · rw [if_pos h2]
      rw [show 4 - r.length = k from by omega]
    · rw [if_neg h2, ← List.append_assoc, ← List.replicate_add]
      rw [show 4 - (k + r.length) + k = 4 - r.length from by omega]

theorem padStart4_strip0 (s : NorgeData.Str) (h : s.length ≤ 4) :
    NorgeData.padStart4 (NorgeData.strip0 s) = NorgeData.padStart4 s := by
  obtain ⟨k, hk⟩ := strip0_decomp s
  have hlen : s.length = k + (NorgeData.strip0 s).length := by
    conv_lhs => rw [hk]
    simp
  conv_rhs => rw [hk]
  exact (padStart4_append_zeros k (NorgeData.strip0 s) (by omega)).symm

theorem JSNum.leB_eq (a b : JSNum) : JSNum.leB a b = true ↔ JSNum.le a b := by
  simp [JSNum.leB]

theorem JSNum.le_trans {a b c : JSNum} (h1 : JSNum.le a b) (h2 : JSNum.le b c) :
    JSNum.le a c := by
  cases a <;> cases b <;> cases c
  all_goals simp only [JSNum.le] at h1 h2 ⊢
  all_goals first
    | trivial
    | exact h1.trans h2

theorem subseqLoop_nil (t : NorgeData.Str) : NorgeData.subseqLoop [] t = true := by
  cases t <;> rfl

theorem startsWithB_nil (t : NorgeData.Str) : NorgeData.startsWithB [] t = true := by
  cases t <;> rfl

theorem containsB_nil (h : NorgeData.Str) : NorgeData.containsB [] h = true := by
  cases h with
  | nil => rfl
  | cons b t => simp [NorgeData.containsB, startsWithB_nil]

theorem shortId_tier1 {data : List Kommune} {s : Str} {a : Kommune}
    (h : data.find? (fun kommune => kommune.k_id == padStart4 (strip0 s)) = some a) :
    getKommuneByShortId data s = some a := by
  unfold getKommuneByShortId
  simp only [h]

theorem shortId_tier2 {data : List Kommune} {s : Str} {a : Kommune}
    (h1 : data.find? (fun kommune => kommune.k_id == padStart4 (strip0 s)) = none)
    (h2 : data.find? (fun kommune => strip0 kommune.k_id == strip0 s) = some a) :
    getKommuneByShortId data s = some a := by
  unfold getKommuneByShortId
  simp only [h1, h2]

theorem shortId_tier3 {data : List Kommune} {s : Str}
    (h1 : data.find? (fun kommune => kommune.k_id == padStart4 (strip0 s)) = none)
    (h2 : data.find? (fun kommune => strip0 kommune.k_id == strip0 s) = none) :
    getKommuneByShortId data s
      = data.find? (fun kommune => subseqLoop (strip0 s) kommune.k_id) := by
  unfold getKommuneByShortId
  simp only [h1, h2]

/-- C1 (amended): `getKommuneByShortId` normalises the input by stripping
leading zeros and then runs the three-tier fallback on the normalised
string: (a) left-pad it to 4 digits and match an identifier exactly,
(b) otherwise first identifier equal to it after stripping the identifier's
leading zeros, (c) otherwise first identifier containing it as an in-order
subsequence, else the not-found sentinel; moreover for every input of at
most 4 characters the tier (a) comparison string equals the raw input
left-padded to 4 digits. -/
theorem getKommuneByShortId_tiers (data : List Kommune) (s : Str) :
    getKommuneByShortId data s = specShortId data s ∧
    (s.length ≤ 4 → padStart4 (strip0 s) = padStart4 s) := by
  refine ⟨?_, padStart4_strip0 s⟩
  have hps : (fun kommune : Kommune => subseqLoop (strip0 s) kommune.k_id)
      = (fun kommune : Kommune => decide (strip0 s <+ kommune.k_id)) := by
    funext k
    have hiff := subseqLoop_iff (strip0 s) k.k_id
    by_cases h : strip0 s <+ k.k_id
    · simp [h, hiff]
    · rw [decide_eq_false h]
      exact Bool.eq_false_iff.mpr (fun hc => h (hiff.mp hc))
  simp only [getKommuneByShortId, specShortId, hps]

/-- C1 counterexample: on input `"01"` the code's subsequence tier searches
for the stripped digits `"1"` and finds identifier `1000`, while the claim's
literal tier (c) — the raw input's digits `"01"` in order — matches nothing,
so the claim's described result (the sentinel) differs from the code's. -/
theorem claimedShortId_ne_code :
    claimedShortId [k1000] ['0', '1'] = none ∧
    getKommuneByShortId [k1000] ['0', '1'] = some k1000 :=
  ⟨rfl, rfl⟩

/-- C1 witness: the tier characterisation evaluated on concrete data, and
the padding fact discharged at the concrete 2-character input `"01"`. -/
theorem getKommuneByShortId_tiers_witness :
    getKommuneByShortId [k3101, oslo0301] ['3', '1']
      = specShortId [k3101, oslo0301] ['3', '1'] ∧
    padStart4 (strip0 ['0', '1']) = padStart4 ['0', '1'] :=
  ⟨(getKommuneByShortId_tiers [k3101, oslo0301] ['3', '1']).1,
   (getKommuneByShortId_tiers [k3101, oslo0301] ['0', '1']).2 (by decide)⟩

/-- C2 counterexample: in a dataset containing Oslo (`0301`) behind the
county-31 record `3101`, input `"301"` returns Oslo but input `"31"` returns
the other county's municipality via the subsequence tier; the zero-stripped
tier matches nothing for `"31"`, so the claim's asserted tier (b) resolution
and its non-ambiguity guarantee both fail. -/
theorem shortId_31_ambiguous :
    getKommuneByShortId [k3101, oslo0301] ['3', '0', '1'] = some oslo0301 ∧
    getKommuneByShortId [k3101, oslo0301] ['3', '1'] = some k3101 ∧
    List.find? (fun kommune => strip0 kommune.k_id == strip0 ['3', '1'])
      [k3101, oslo0301] = none ∧
    k3101 ≠ oslo0301 :=
  ⟨rfl, rfl, rfl, by decide⟩

/-- C2 (amended): with Oslo (`0301`) in the table, `"301"` resolves via the
exact padded match; `"31"` can never resolve via the zero-stripped tier when
all identifiers are 4 characters and `0031` is absent, so it falls to the
subsequence tier, and it returns Oslo exactly when no other record's
identifier contains `3`, `1` in order ahead of it. -/
theorem getKommuneByShortId_oslo (data : List Kommune) (m : Kommune)
    (hm : m ∈ data) (hid : m.k_id = ['0', '3', '0', '1'])
    (huniq : ∀ k ∈ data, k.k_id = ['0', '3', '0', '1'] → k = m)
    (hlen : ∀ k ∈ data, k.k_id.length = 4)
    (hno : ∀ k ∈ data, k.k_id ≠ ['0', '0', '3', '1']) :
    getKommuneByShortId data ['3', '0', '1'] = some m ∧
    getKommuneByShortId data ['3', '1']
      = data.find? (fun kommune => subseqLoop ['3', '1'] kommune.k_id) ∧
    ((∀ k ∈ data, ['3', '1'] <+ k.k_id → k = m) →
      getKommuneByShortId data ['3', '1'] = some m) := by
  have hpad301 : padStart4 (strip0 ['3', '0', '1']) = ['0', '3', '0', '1'] := rfl
  have hpad31 : padStart4 (strip0 ['3', '1']) = ['0', '0', '3', '1'] := rfl
  have hstrip31 : strip0 ['3', '1'] = ['3', '1'] := rfl
  have h301 : getKommuneByShortId data ['3', '0', '1'] = some m := by
    apply shortId_tier1
    rw [hpad301]
    apply find?_first _ _ _ hm
    · rw [hid]; simp
    · intro x hx hpx
      exact huniq x hx (by simpa using hpx)
  have ht1 : data.find?
      (fun kommune => kommune.k_id == padStart4 (strip0 ['3', '1'])) = none := by
    rw [List.find?_eq_none]
    intro k hk
    rw [hpad31]
    simpa using hno k hk
  have ht2 : data.find?
      (fun kommune => strip0 kommune.k_id == strip0 ['3', '1']) = none := by
    rw [List.find?_eq_none]
    intro k hk
    rw [hstrip31]
    simp only [beq_iff_eq]
    intro hstrip
    obtain ⟨j, hj⟩ := strip0_decomp k.k_id
    rw [hstrip] at hj
    have hlen4 := hlen k hk
    rw [hj] at hlen4
    simp only [List.length_append, List.length_replicate, List.length_cons,
      List.length_nil] at hlen4
    have hj2 : j = 2 := by omega
    rw [hj2] at hj
    exact hno k hk (by rw [hj]; rfl)
  have h31 : getKommuneByShortId data ['3', '1']
      = data.find? (fun kommune => subseqLoop (strip0 ['3', '1']) kommune.k_id) :=
    shortId_tier3 ht1 ht2
  rw [hstrip31] at h31
  refine ⟨h301, h31, ?_⟩
  intro honly
  rw [h31]
  apply find?_first _ _ _ hm
  · rw [hid]; rfl
  · intro x hx hpx
    exact honly x hx ((subseqLoop_iff _ _).mp hpx)

/-- C2 witness: with Oslo as the only record, `"301"` and `"31"` both return
it, the latter through the subsequence tier. -/
theorem getKommuneByShortId_oslo_witness :
    getKommuneByShortId [oslo0301] ['3', '0', '1'] = some oslo0301 ∧
    getKommuneByShortId [oslo0301] ['3', '1'] = some oslo0301 := by
  have h := getKommuneByShortId_oslo [oslo0301] oslo0301 (by decide) (by decide)
    (by decide) (by decide) (by decide)
  exact ⟨h.1, h.2.2 (by decide)⟩

/-- C9: an input that is empty or consists only of zero digits normalises to
the empty search string; if no identifier is all zeros (so the padded and
zero-stripped tiers find nothing), the subsequence tier accepts every
record and the first municipality in source order is returned. -/
theorem getKommuneByShortId_all_zeros (data : List Kommune) (s : Str)
    (hz : ∀ c ∈ s, c = '0')
    (h1 : ∀ k ∈ data, k.k_id ≠ ['0', '0', '0', '0'])
    (h2 : ∀ k ∈ data, strip0 k.k_id ≠ []) :
    getKommuneByShortId data s = data.head? := by
  have hs : strip0 s = [] := (strip0_eq_nil_iff s).mpr hz
  have hpad : padStart4 ([] : Str) = ['0', '0', '0', '0'] := rfl
  have ht1 : data.find?
      (fun kommune => kommune.k_id == padStart4 (strip0 s)) = none := by
    rw [List.find?_eq_none]
    intro k hk
    rw [hs, hpad]
    simpa using h1 k hk
  have ht2 : data.find?
      (fun kommune => strip0 kommune.k_id == strip0 s) = none := by
    rw [List.find?_eq_none]
    intro k hk
    rw [hs]
    simpa using h2 k hk
  rw [shortId_tier3 ht1 ht2, hs]
  cases data with
  | nil => rfl
  | cons k t =>
    have hk : (fun kommune : Kommune => subseqLoop [] kommune.k_id) k = true :=
      subseqLoop_nil k.k_id
    rw [List.find?_cons_of_pos t hk]
    rfl

/-- C9 witness: with one ordinary record, inputs `"0"` and `""` return it. -/
theorem getKommuneByShortId_all_zeros_witness :
    getKommuneByShortId [k1000] ['0'] = some k1000 ∧
    getKommuneByShortId [k1000] [] = some k1000 :=
  ⟨getKommuneByShortId_all_zeros [k1000] ['0'] (by decide) (by decide) (by decide),
   getKommuneByShortId_all_zeros [k1000] [] (by decide) (by decide) (by decide)⟩

/-- C3: when identifiers are unique, exact identifier lookup round-trips:
every loaded county is returned by `getFylkeById` applied to its own
identifier, and every loaded municipality by `getKommuneById`. -/
theorem lookupById_roundtrip (fdata : List Fylke) (kdata : List Kommune)
    (hf : ∀ a ∈ fdata, ∀ b ∈ fdata, a.f_id = b.f_id → a = b)
    (hk : ∀ a ∈ kdata, ∀ b ∈ kdata, a.k_id = b.k_id → a = b) :
    (∀ c ∈ fdata, getFylkeById fdata c.f_id = some c) ∧
    (∀ m ∈ kdata, getKommuneById kdata m.k_id = some m) := by
  constructor
  · intro c hc
    simp only [getFylkeById]
    apply find?_first _ _ _ hc
    · simp
    · intro x hx hpx
      exact hf x hx c hc (by simpa using hpx)
  · intro m hm
    simp only [getKommuneById]
    apply find?_first _ _ _ hm
    · simp
    · intro x hx hpx
      exact hk x hx m hm (by simpa using hpx)

/-- C3 witness: the round-trip evaluated on a concrete county and a concrete
municipality table. -/
theorem lookupById_roundtrip_witness :
    getFylkeById [osloFylke] osloFylke.f_id = some osloFylke ∧
    getKommuneById [oslo0301, k3101] oslo0301.k_id = some oslo0301 := by
  have h := lookupById_roundtrip [osloFylke] [oslo0301, k3101] (by decide) (by decide)
  exact ⟨h.1 osloFylke (by decide), h.2 oslo0301 (by decide)⟩

/-- C4: the population and area filters keep exactly the records whose value
lies inclusively between the bounds, preserving source order; with
non-negative populations the range `[0, ∞)` keeps the whole table, and a
lower bound beyond the maximum population keeps nothing. -/
theorem rangeFilter_inclusive (data : List Kommune) (min max : JSNum) :
    getKommunerByPopulation data min max <+ data ∧
    (∀ k, k ∈ getKommunerByPopulation data min max ↔
      k ∈ data ∧ JSNum.le min (.fin k.k_population) ∧
        JSNum.le (.fin k.k_population) max) ∧
    getKommunerByArea data min max <+ data ∧
    (∀ k, k ∈ getKommunerByArea data min max ↔
      k ∈ data ∧ JSNum.le min (.fin k.k_area) ∧ JSNum.le (.fin k.k_area) max) ∧
    ((∀ k ∈ data, 0 ≤ k.k_population) →
      getKommunerByPopulation data (.fin 0) .posInf = data) ∧
    (∀ M : ℚ, (∀ k ∈ data, k.k_population ≤ M) →
      getKommunerByPopulation data (.fin (M + 1)) .posInf = []) := by
  refine ⟨List.filter_sublist data, ?_, List.filter_sublist data, ?_, ?_, ?_⟩
  · intro k
    simp [getKommunerByPopulation, List.mem_filter, JSNum.leB_eq, and_assoc]
  · intro k
    simp [getKommunerByArea, List.mem_filter, JSNum.leB_eq, and_assoc]
  · intro h
    simp only [getKommunerByPopulation]
    rw [List.filter_eq_self]
    intro k hk
    simp [JSNum.leB, JSNum.le, h k hk]
  · intro M h
    simp only [getKommunerByPopulation]
    rw [List.filter_eq_nil_iff]
    intro k hk
    have hlt : k.k_population < M + 1 := lt_of_le_of_lt (h k hk) (lt_add_one M)
    simp [JSNum.leB, JSNum.le, not_le.mpr hlt]

/-- C4 witness: the inclusive range filter evaluated on concrete data with
bounds `[0, ∞)` and `[maxPopulation + 1, ∞)`. -/
theorem rangeFilter_inclusive_witness :
    getKommunerByPopulation [k1000, oslo0301] (.fin 0) .posInf
      = [k1000, oslo0301] ∧
    getKommunerByPopulation [k1000, oslo0301] (.fin (717710 + 1)) .posInf
      = [] := by
  refine ⟨(rangeFilter_inclusive [k1000, oslo0301] (.fin 0) .posInf).2.2.2.2.1
    (by decide), ?_⟩
  exact (rangeFilter_inclusive [k1000, oslo0301] (.fin 0) .posInf).2.2.2.2.2
    717710 (by decide)

/-- C5: name lookup goes through lower-casing on both sides, so any two
inputs with the same lower-cased form give identical results; a municipality
name lookup returns the first record matching on the primary or alternate
name case-insensitively, and the sentinel exactly when no record matches. -/
theorem nameLookup_case_insensitive (fdata : List Fylke) (kdata : List Kommune)
    (s t : Str) :
    (lowerStr s = lowerStr t →
      getFylkeByName fdata s = getFylkeByName fdata t ∧
      getKommuneByName kdata s = getKommuneByName kdata t) ∧
    (getKommuneByName kdata s = none ↔
      ∀ k ∈ kdata, ¬lowerStr k.k_name = lowerStr s ∧
        ¬lowerStr k.k_name_no = lowerStr s) ∧
    (∀ m, getKommuneByName kdata s = some m →
      ∃ l₁ l₂, kdata = l₁ ++ m :: l₂ ∧
        (lowerStr m.k_name = lowerStr s ∨ lowerStr m.k_name_no = lowerStr s) ∧
        ∀ k ∈ l₁, ¬lowerStr k.k_name = lowerStr s ∧
          ¬lowerStr k.k_name_no = lowerStr s) := by
  refine ⟨?_, ?_, ?_⟩
  · intro h
    constructor
    · simp only [getFylkeByName, h]
    · simp only [getKommuneByName, h]
  · simp only [getKommuneByName, List.find?_eq_none, Bool.or_eq_true, beq_iff_eq,
      not_or]
  · intro m hm
    rw [getKommuneByName] at hm
    obtain ⟨l₁, l₂, heq, hpm, hnone⟩ := find?_split hm
    refine ⟨l₁, l₂, heq, by simpa using hpm, ?_⟩
    intro k hk
    have := hnone k hk
    simpa [not_or] using this

/-- C5 witness: an upper-case and a lower-case spelling of Oslo give the same
lookup results on concrete tables. -/
theorem nameLookup_case_insensitive_witness :
    getFylkeByName [osloFylke] ['O', 'S', 'L', 'O']
      = getFylkeByName [osloFylke] ['o', 's', 'l', 'o'] ∧
    getKommuneByName [oslo0301] ['O', 'S', 'L', 'O']
      = getKommuneByName [oslo0301] ['o', 's', 'l', 'o'] :=
  (nameLookup_case_insensitive [osloFylke] [oslo0301]
    ['O', 'S', 'L', 'O'] ['o', 's', 'l', 'o']).1 (by decide)

/-- C6: substring name search keeps exactly the municipalities whose
lower-cased primary or alternate name contains the lower-cased fragment as a
contiguous substring, in source order, and the empty fragment keeps the
whole table. -/
theorem searchByName_substring (data : List Kommune) (s : Str) :
    searchKommunerByName data s <+ data ∧
    (∀ k, k ∈ searchKommunerByName data s ↔
      k ∈ data ∧
        ((∃ l r, lowerStr k.k_name = l ++ lowerStr s ++ r) ∨
         (∃ l r, lowerStr k.k_name_no = l ++ lowerStr s ++ r))) ∧
    searchKommunerByName data [] = data := by
  refine ⟨List.filter_sublist data, ?_, ?_⟩
  · intro k
    simp [searchKommunerByName, List.mem_filter, containsB_iff]
  · simp only [searchKommunerByName]
    rw [List.filter_eq_self]
    intro k hk
    have h0 : lowerStr ([] : Str) = [] := rfl
    simp [h0, containsB_nil]

/-- C7: the county relational filter keeps exactly the municipalities whose
identifier extends the given county identifier, in source order. -/
theorem getKommunerInFylke_spec (data : List Kommune) (fylkeId : Str) :
    getKommunerInFylke data fylkeId <+ data ∧
    ∀ k, k ∈ getKommunerInFylke data fylkeId ↔
      k ∈ data ∧ ∃ r, k.k_id = fylkeId ++ r := by
  refine ⟨List.filter_sublist data, ?_⟩
  intro k
  simp [getKommunerInFylke, List.mem_filter, startsWithB_iff]

/-- C8: a lookup miss is reported through the `none` sentinel exactly when no
record matches, and the range filters are total, returning the empty
collection whenever the bounds form an empty range. -/
theorem query_total (fdata : List Fylke) (kdata : List Kommune) (id : Str)
    (min max : JSNum) :
    (getFylkeById fdata id = none ↔ ∀ f ∈ fdata, ¬f.f_id = id) ∧
    ((getFylkeById fdata id).isSome ↔ ∃ f ∈ fdata, f.f_id = id) ∧
    (¬JSNum.le min max →
      getKommunerByPopulation kdata min max = [] ∧
      getKommunerByArea kdata min max = []) := by
  refine ⟨?_, ?_, ?_⟩
  · simp only [getFylkeById, List.find?_eq_none, beq_iff_eq]
  · simp only [getFylkeById, List.find?_isSome, beq_iff_eq]
  · intro h
    constructor
    · simp only [getKommunerByPopulation]
      rw [List.filter_eq_nil_iff]
      intro k hk
      simp only [Bool.and_eq_true, JSNum.leB_eq]
      rintro ⟨ha, hb⟩
      exact h (JSNum.le_trans ha hb)
    · simp only [getKommunerByArea]
      rw [List.filter_eq_nil_iff]
      intro k hk
      simp only [Bool.and_eq_true, JSNum.leB_eq]
      rintro ⟨ha, hb⟩
      exact h (JSNum.le_trans ha hb)

/-- C8 witness: the empty range `[5, 3]` returns the empty collection on a
concrete table. -/
theorem query_total_witness :
    getKommunerByPopulation [k1000] (.fin 5) (.fin 3) = [] ∧
    getKommunerByArea [k1000] (.fin 5) (.fin 3) = [] :=
  (query_total [] [k1000] [] (.fin 5) (.fin 3)).2.2 (by decide)

/-- C10: the empty county identifier is a prefix of every identifier, so
`getKommunerInFylke` with the empty string returns the whole table. -/
theorem getKommunerInFylke_empty (data : List Kommune) :
    getKommunerInFylke data [] = data := by
  simp only [getKommunerInFylke]
  rw [List.filter_eq_self]
  intro k hk
  exact startsWithB_nil k.k_id

end NorgeData
